import Mathlib

/-
Shallow embedding of the lc2kdb core (src/cpu.rs): an emulator for a small
8-register, word-addressed machine with 8 instruction forms, plus the
stepping engine used by the interactive debugger (src/main.rs).

Modelling conventions:
- Machine words are `Nat` with explicit reduction modulo 2^32 wherever the
  Rust code performs wrapping u32 arithmetic.
- The Rust `unreachable!()` arms of `Register::new` and `Instruction::new`
  are modelled as `none`; totality of the decoder is then a theorem, not a
  modelling assumption.
- A Rust panic (out-of-bounds slice index on instruction fetch, load, or
  store) is modelled by `CPU.step` returning `none`.  Plain `+` on `u32`
  (the `pc` increments and the JALR link value) is modelled with
  release-mode wrapping semantics, i.e. reduction modulo 2^32.
- `CPU.step` returns `some (state, b)` where `b` is the `bool` returned by
  the Rust method (`true` means the program has halted).
-/

/-- Register indices r0 through r7, mirroring the source enum `Register`. -/
inductive Register where
  | r0
  | r1
  | r2
  | r3
  | r4
  | r5
  | r6
  | r7
deriving DecidableEq, Repr

/-- Source `Register::new`: the index is masked to its low 3 bits and mapped
to the corresponding register; the wildcard arm is the source's
`unreachable!()`, modelled as `none`. -/
def Register.new (index : Nat) : Option Register :=
  let i := index &&& 7
  if i = 0 then some .r0
  else if i = 1 then some .r1
  else if i = 2 then some .r2
  else if i = 3 then some .r3
  else if i = 4 then some .r4
  else if i = 5 then some .r5
  else if i = 6 then some .r6
  else if i = 7 then some .r7
  else none

/-- Decoded instruction forms, mirroring the source enum `Instruction`.
The 16-bit offset field is stored sign-extended as an `Int`, matching the
source's `as i16` reinterpretation of the low 16 bits. -/
inductive Instruction where
  | add (reg_a reg_b dst_reg : Register)
  | nor (reg_a reg_b dst_reg : Register)
  | lw (reg_a reg_b : Register) (offset_field : Int)
  | sw (reg_a reg_b : Register) (offset_field : Int)
  | beq (reg_a reg_b : Register) (offset_field : Int)
  | jalr (reg_a reg_b : Register)
  | halt
  | noop
deriving DecidableEq, Repr

/-- Reinterpretation of a 16-bit value as a signed two's-complement integer,
modelling the source's `(code & 0xFFFF) as i16`. -/
def toI16 (v : Nat) : Int :=
  if v < 32768 then (v : Int) else (v : Int) - 65536

/-- Source `Instruction::parse_r`: register fields at bits 21-19, 18-16 and
2-0. -/
def Instruction.parse_r (code : Nat) : Option (Register × Register × Register) :=
  (Register.new (code >>> 19)).bind fun reg_a =>
    (Register.new (code >>> 16)).bind fun reg_b =>
      (Register.new code).map fun dst_reg => (reg_a, reg_b, dst_reg)

/-- Source `Instruction::parse_i`: register fields at bits 21-19 and 18-16,
signed 16-bit offset at bits 15-0. -/
def Instruction.parse_i (code : Nat) : Option (Register × Register × Int) :=
  (Register.new (code >>> 19)).bind fun reg_a =>
    (Register.new (code >>> 16)).map fun reg_b =>
      (reg_a, reg_b, toI16 (code &&& 65535))

/-- Source `Instruction::parse_j`: register fields at bits 21-19 and
18-16. -/
def Instruction.parse_j (code : Nat) : Option (Register × Register) :=
  (Register.new (code >>> 19)).bind fun reg_a =>
    (Register.new (code >>> 16)).map fun reg_b => (reg_a, reg_b)

/-- Source `Instruction::new`: the 3-bit opcode at bits 24-22 selects the
form; the wildcard arm is the source's `unreachable!()`, modelled as
`none`. -/
def Instruction.new (code : Nat) : Option Instruction :=
  let opcode := (code >>> 22) &&& 7
  if opcode = 0 then (parse_r code).map fun x => .add x.1 x.2.1 x.2.2
  else if opcode = 1 then (parse_r code).map fun x => .nor x.1 x.2.1 x.2.2
  else if opcode = 2 then (parse_i code).map fun x => .lw x.1 x.2.1 x.2.2
  else if opcode = 3 then (parse_i code).map fun x => .sw x.1 x.2.1 x.2.2
  else if opcode = 4 then (parse_i code).map fun x => .beq x.1 x.2.1 x.2.2
  else if opcode = 5 then (parse_j code).map fun x => .jalr x.1 x.2
  else if opcode = 6 then some .halt
  else if opcode = 7 then some .noop
  else none

/-- Source constant `MEMORY_SIZE`. -/
def MEMORY_SIZE : Nat := 65536

/-- Modulus of 32-bit machine words, 2^32. -/
def U32 : Nat := 4294967296

/-- Machine state, mirroring the source struct `CPU`.  The register file is
a total function from register ids to word values and memory a total
function from addresses to word values; only addresses below `MEMORY_SIZE`
are backed by the Rust array, and every access outside that range is
modelled as a panic by the step function. -/
structure CPU where
  register_file : Register → Nat
  memory : Nat → Nat
  pc : Nat
  halted : Bool

/-- Source `CPU::new`: memory is the program image zero-extended, registers
are zeroed, `pc = 0`, not halted. -/
def CPU.new (starting_memory : List Nat) : CPU :=
  { register_file := fun _ => 0
    memory := fun addr => starting_memory.getD addr 0
    pc := 0
    halted := false }

/-- Source `CPU::get_register`. -/
def CPU.get_register (s : CPU) (register : Register) : Nat :=
  s.register_file register

/-- Source `CPU::set_register`. -/
def CPU.set_register (s : CPU) (register : Register) (value : Nat) : CPU :=
  { s with register_file := fun q => if q = register then value else s.register_file q }

/-- Source `CPU::offset_memory`: `address.wrapping_add_signed(offset_field as i32)`
on `u32`, i.e. signed offset addition reduced modulo 2^32. -/
def CPU.offset_memory (address : Nat) (offset_field : Int) : Nat :=
  (((address : Int) + offset_field) % (U32 : Int)).toNat

/-- The shared fall-through tail of the source's `step` match: `self.pc += 1`
followed by `return false`. -/
def CPU.advance (s : CPU) : Option (CPU × Bool) :=
  some ({ s with pc := (s.pc + 1) % U32 }, false)

/-- Source `CPU::step`.  Returns `none` exactly where the Rust code panics
on an out-of-range index (instruction fetch, LW load, SW store); otherwise
returns the mutated state together with the returned `bool` (`true` means
halted). -/
def CPU.step (s : CPU) : Option (CPU × Bool) :=
  if s.halted then some (s, true)
  else if s.pc < MEMORY_SIZE then
    match Instruction.new (s.memory s.pc) with
    | none => none
    | some (.add reg_a reg_b dst_reg) =>
      CPU.advance
        (s.set_register dst_reg ((s.get_register reg_a + s.get_register reg_b) % U32))
    | some (.nor reg_a reg_b dst_reg) =>
      CPU.advance
        (s.set_register dst_reg ((s.get_register reg_a ||| s.get_register reg_b) ^^^ 4294967295))
    | some (.lw reg_a reg_b offset_field) =>
      let addr := CPU.offset_memory (s.get_register reg_a) offset_field
      if addr < MEMORY_SIZE then
        CPU.advance (s.set_register reg_b (s.memory addr))
      else none
    | some (.sw reg_a reg_b offset_field) =>
      let addr := CPU.offset_memory (s.get_register reg_a) offset_field
      if addr < MEMORY_SIZE then
        CPU.advance
          { s with memory := fun a => if a = addr then s.get_register reg_b else s.memory a }
      else none
    | some (.beq reg_a reg_b offset_field) =>
      CPU.advance
        (if s.get_register reg_a = s.get_register reg_b then
          { s with pc := CPU.offset_memory s.pc offset_field }
        else s)
    | some (.jalr reg_a reg_b) =>
      let s1 := s.set_register reg_b ((s.pc + 1) % U32)
      some ({ s1 with pc := s1.get_register reg_a }, false)
    | some .halt =>
      some ({ s with pc := (s.pc + 1) % U32, halted := true }, true)
    | some .noop => CPU.advance s
  else none

/-- The `for` loop body of source `CPU::step_n`: run `step` up to `count`
times, stopping (and latching the halted flag) as soon as `step` reports a
halt. -/
def CPU.step_n_loop : CPU → Nat → Option (CPU × Bool)
  | s, 0 => some (s, false)
  | s, count + 1 =>
    match CPU.step s with
    | none => none
    | some (s1, true) => some ({ s1 with halted := true }, true)
    | some (s1, false) => CPU.step_n_loop s1 count

/-- Source `CPU::step_n`: immediately reports `true` when already halted,
otherwise iterates `step`. -/
def CPU.step_n (s : CPU) (count : Nat) : Option (CPU × Bool) :=
  if s.halted then some (s, true) else CPU.step_n_loop s count

/-- Instructions that touch only the register file (and advance pc by one):
ADD, NOR, NOOP. -/
def regOnly : Instruction → Bool
  | .add _ _ _ => true
  | .nor _ _ _ => true
  | .noop => true
  | _ => false

/-- Modelled from the spec: the executed-instruction counter.  The canonical
core described by the spec maintains a counter read by the debug shell's
`count` command via `read_instruction_count` (`get_instruction_count` in
src/main.rs), but the copy of cpu.rs under src/ carries no such field or
accessor, so the counter is modelled here from the spec's words: unsigned,
initialized to 0, incremented by exactly one for every instruction actually
executed (including NOOP and the halting HALT itself, but not counting
further step calls after halted). -/
structure CountedCPU where
  cpu : CPU
  instruction_count : Nat

/-- Modelled from the spec: construction zeroes the counter. -/
def CountedCPU.new (starting_memory : List Nat) : CountedCPU :=
  { cpu := CPU.new starting_memory, instruction_count := 0 }

/-- Modelled from the spec: a step on a non-halted machine executes exactly
one instruction and counts it; a step on a halted machine counts nothing. -/
def CountedCPU.step (s : CountedCPU) : Option (CountedCPU × Bool) :=
  if s.cpu.halted then some (s, true)
  else
    match CPU.step s.cpu with
    | none => none
    | some (c1, b) => some ({ cpu := c1, instruction_count := s.instruction_count + 1 }, b)

/-- Modelled from the spec: the loop of the counted variant of `step_n`,
with the same early-stop behaviour as source `CPU::step_n`. -/
def CountedCPU.step_n_loop : CountedCPU → Nat → Option (CountedCPU × Bool)
  | s, 0 => some (s, false)
  | s, count + 1 =>
    match CountedCPU.step s with
    | none => none
    | some (s1, true) => some ({ s1 with cpu := { s1.cpu with halted := true } }, true)
    | some (s1, false) => CountedCPU.step_n_loop s1 count

/-- Modelled from the spec: counted variant of source `CPU::step_n`. -/
def CountedCPU.step_n (s : CountedCPU) (count : Nat) : Option (CountedCPU × Bool) :=
  if s.cpu.halted then some (s, true) else CountedCPU.step_n_loop s count

/-- Modelled from the spec: observer for the executed-instruction counter. -/
def read_instruction_count (s : CountedCPU) : Nat :=
  s.instruction_count

/-- Concrete state for BEQ: r1 = r2 = 5, word 0 encodes `BEQ r1,r2,+3`
(0b100 at bits 24-22, r1, r2, offset 3), pc = 0. -/
def beqExample : CPU :=
  { register_file := fun q => if q = .r1 then 5 else if q = .r2 then 5 else 0
    memory := fun a => if a = 0 then 17432579 else 0
    pc := 0
    halted := false }

/-- Concrete state for JALR with equal registers: r1 = 100, word 10 encodes
`JALR r1,r1`, pc = 10. -/
def jalrSameExample : CPU :=
  { register_file := fun q => if q = .r1 then 100 else 0
    memory := fun a => if a = 10 then 21561344 else 0
    pc := 10
    halted := false }

/-- Concrete state for JALR with distinct registers: r1 = 100, word 10
encodes `JALR r1,r2`, pc = 10. -/
def jalrExample : CPU :=
  { register_file := fun q => if q = .r1 then 100 else 0
    memory := fun a => if a = 10 then 21626880 else 0
    pc := 10
    halted := false }

/-- Concrete state for ADD overflow: r1 = 0xFFFFFFFF, r2 = 1, word 0
encodes `ADD r1,r2 -> r3`, pc = 0. -/
def addExample : CPU :=
  { register_file := fun q => if q = .r1 then 4294967295 else if q = .r2 then 1 else 0
    memory := fun a => if a = 0 then 655363 else 0
    pc := 0
    halted := false }

/-- Concrete state for an out-of-range LW: r1 = 70000, word 0 encodes
`LW r1 -> r2, offset 0`, pc = 0; the effective address 70000 is outside
the memory. -/
def lwFaultExample : CPU :=
  { register_file := fun q => if q = .r1 then 70000 else 0
    memory := fun a => if a = 0 then 9043968 else 0
    pc := 0
    halted := false }

/-- Concrete state for an out-of-range SW: r1 = 70000, word 0 encodes
`SW r1,r2, offset 0`, pc = 0. -/
def swFaultExample : CPU :=
  { register_file := fun q => if q = .r1 then 70000 else 0
    memory := fun a => if a = 0 then 13238272 else 0
    pc := 0
    halted := false }

/-- Concrete state for an out-of-range instruction fetch: pc = 70000. -/
def fetchFaultExample : CPU :=
  { register_file := fun _ => 0
    memory := fun _ => 0
    pc := 70000
    halted := false }

/-- Concrete already-halted state. -/
def haltedExample : CPU :=
  { register_file := fun _ => 0
    memory := fun _ => 0
    pc := 3
    halted := true }

/-- Concrete state for the store/load round-trip: r1 = 100 (the address),
r2 = 77 (the stored value), word 0 encodes `SW r1,r2,0` and word 1 encodes
`LW r1 -> r3, 0`, pc = 0. -/
def roundtripExample : CPU :=
  { register_file := fun q => if q = .r1 then 100 else if q = .r2 then 77 else 0
    memory := fun a => if a = 0 then 13238272 else if a = 1 then 9109504 else 0
    pc := 0
    halted := false }

/-- Masking with 7 is reduction modulo 8. -/
lemma and7_eq (n : Nat) : n &&& 7 = n % 8 := by
  have h := Nat.and_pow_two_sub_one_eq_mod n 3
  norm_num at h
  exact h

/-- Masking with 65535 is reduction modulo 65536. -/
lemma and65535_eq (n : Nat) : n &&& 65535 = n % 65536 := by
  have h := Nat.and_pow_two_sub_one_eq_mod n 16
  norm_num at h
  exact h

/-- The register decoder only depends on the index modulo 8. -/
lemma Register.new_congr {m n : Nat} (h : m % 8 = n % 8) :
    Register.new m = Register.new n := by
  unfold Register.new
  rw [and7_eq, and7_eq, h]

/-- The register decoder never takes its unreachable arm. -/
lemma Register.new_isSome (n : Nat) : (Register.new n).isSome = true := by
  unfold Register.new
  rw [and7_eq]
  have h : n % 8 < 8 := Nat.mod_lt _ (by norm_num)
  interval_cases h : n % 8 <;> simp

/-- Zero offsets are the identity on addresses below 2^32. -/
lemma offset_memory_zero (v : Nat) (hv : v < U32) : CPU.offset_memory v 0 = v := by
  unfold CPU.offset_memory
  rw [Int.add_zero, Int.emod_eq_of_lt (Int.natCast_nonneg v) (by exact_mod_cast hv)]
  simp

/-- Incrementing an in-range pc does not wrap. -/
lemma pc_succ_mod (p : Nat) (hp : p < MEMORY_SIZE) : (p + 1) % U32 = p + 1 := by
  have h1 : p < 65536 := hp
  have h2 : p + 1 < 4294967296 := by omega
  exact Nat.mod_eq_of_lt h2

/-- The register-register field parser never fails. -/
lemma parse_r_isSome (code : Nat) : (Instruction.parse_r code).isSome = true := by
  unfold Instruction.parse_r
  obtain ⟨a, ha⟩ := Option.isSome_iff_exists.mp (Register.new_isSome (code >>> 19))
  obtain ⟨b, hb⟩ := Option.isSome_iff_exists.mp (Register.new_isSome (code >>> 16))
  obtain ⟨c, hc⟩ := Option.isSome_iff_exists.mp (Register.new_isSome code)
  rw [ha, hb, hc]
  rfl

/-- The register-immediate field parser never fails. -/
lemma parse_i_isSome (code : Nat) : (Instruction.parse_i code).isSome = true := by
  unfold Instruction.parse_i
  obtain ⟨a, ha⟩ := Option.isSome_iff_exists.mp (Register.new_isSome (code >>> 19))
  obtain ⟨b, hb⟩ := Option.isSome_iff_exists.mp (Register.new_isSome (code >>> 16))
  rw [ha, hb]
  rfl

/-- The jump field parser never fails. -/
lemma parse_j_isSome (code : Nat) : (Instruction.parse_j code).isSome = true := by
  unfold Instruction.parse_j
  obtain ⟨a, ha⟩ := Option.isSome_iff_exists.mp (Register.new_isSome (code >>> 19))
  obtain ⟨b, hb⟩ := Option.isSome_iff_exists.mp (Register.new_isSome (code >>> 16))
  rw [ha, hb]
  rfl

/-- Executing SW at an in-range effective address writes exactly that memory
cell and advances pc by one. -/
lemma sw_step (s : CPU) (reg_a reg_b : Register) (offset_field : Int)
    (hh : s.halted = false) (hpc : s.pc < MEMORY_SIZE)
    (hdec : Instruction.new (s.memory s.pc) = some (.sw reg_a reg_b offset_field))
    (haddr : CPU.offset_memory (s.get_register reg_a) offset_field < MEMORY_SIZE) :
    CPU.step s = some
      ({ s with
          memory := fun a =>
            if a = CPU.offset_memory (s.get_register reg_a) offset_field then
              s.get_register reg_b
            else s.memory a
          pc := (s.pc + 1) % U32 }, false) := by
  simp [CPU.step, hh, hpc, hdec, CPU.advance, haddr]

/-- Executing LW at an in-range effective address writes exactly the loaded
register and advances pc by one. -/
lemma lw_step (s : CPU) (reg_a reg_b : Register) (offset_field : Int)
    (hh : s.halted = false) (hpc : s.pc < MEMORY_SIZE)
    (hdec : Instruction.new (s.memory s.pc) = some (.lw reg_a reg_b offset_field))
    (haddr : CPU.offset_memory (s.get_register reg_a) offset_field < MEMORY_SIZE) :
    CPU.step s = some
      ({ s with
          register_file := fun q =>
            if q = reg_b then
              s.memory (CPU.offset_memory (s.get_register reg_a) offset_field)
            else s.register_file q
          pc := (s.pc + 1) % U32 }, false) := by
  simp [CPU.step, hh, hpc, hdec, CPU.advance, haddr, CPU.set_register]

/-- Executing HALT sets the halted flag, advances pc by one and reports the
halt. -/
lemma halt_step (s : CPU)
    (hh : s.halted = false) (hpc : s.pc < MEMORY_SIZE)
    (hdec : Instruction.new (s.memory s.pc) = some .halt) :
    CPU.step s = some ({ s with pc := (s.pc + 1) % U32, halted := true }, true) := by
  simp [CPU.step, hh, hpc, hdec]

/-- Executing a register-only instruction (ADD, NOR, NOOP) changes only the
register file, advances pc by one, and does not halt. -/
lemma regOnly_step (s : CPU) (ins : Instruction)
    (hh : s.halted = false) (hpc : s.pc < MEMORY_SIZE)
    (hdec : Instruction.new (s.memory s.pc) = some ins) (hro : regOnly ins = true) :
    ∃ rf, CPU.step s =
      some ({ s with register_file := rf, pc := (s.pc + 1) % U32 }, false) := by
  cases ins with
  | add reg_a reg_b dst_reg =>
    exact ⟨fun q => if q = dst_reg then (s.get_register reg_a + s.get_register reg_b) % U32
        else s.register_file q,
      by simp [CPU.step, hh, hpc, hdec, CPU.advance, CPU.set_register]⟩
  | nor reg_a reg_b dst_reg =>
    exact ⟨fun q => if q = dst_reg then (s.get_register reg_a ||| s.get_register reg_b) ^^^ 4294967295
        else s.register_file q,
      by simp [CPU.step, hh, hpc, hdec, CPU.advance, CPU.set_register]⟩
  | noop =>
    exact ⟨s.register_file, by simp [CPU.step, hh, hpc, hdec, CPU.advance]⟩
  | lw reg_a reg_b offset_field => simp [regOnly] at hro
  | sw reg_a reg_b offset_field => simp [regOnly] at hro
  | beq reg_a reg_b offset_field => simp [regOnly] at hro
  | jalr reg_a reg_b => simp [regOnly] at hro
  | halt => simp [regOnly] at hro

/-- Running the step loop over `r` register-only instructions followed by a
HALT halts the machine and counts exactly `r + 1` executed instructions. -/
lemma step_n_loop_straight : ∀ (r : Nat) (t : CountedCPU),
    t.cpu.halted = false → t.cpu.pc + r < MEMORY_SIZE →
    (∀ j, j < r → (Instruction.new (t.cpu.memory (t.cpu.pc + j))).map regOnly = some true) →
    Instruction.new (t.cpu.memory (t.cpu.pc + r)) = some .halt →
    (CountedCPU.step_n_loop t (r + 1)).map (fun p => (p.2, p.1.instruction_count)) =
      some (true, t.instruction_count + (r + 1)) := by
  intro r
  induction r with
  | zero =>
    intro t hh hpc _ hlast
    have hpc0 : t.cpu.pc < MEMORY_SIZE := by omega
    rw [Nat.add_zero] at hlast
    have hstep := halt_step t.cpu hh hpc0 hlast
    simp [CountedCPU.step_n_loop, CountedCPU.step, hh, hstep]
  | succ r ih =>
    intro t hh hpc hbody hlast
    have hpc0 : t.cpu.pc < MEMORY_SIZE := by omega
    obtain ⟨ins, hins, hro⟩ := Option.map_eq_some'.mp (hbody 0 (by omega))
    rw [Nat.add_zero] at hins
    obtain ⟨rf, hstep⟩ := regOnly_step t.cpu ins hh hpc0 hins hro
    rw [pc_succ_mod t.cpu.pc hpc0] at hstep
    have hcstep : CountedCPU.step t =
        some ({ cpu := { t.cpu with register_file := rf, pc := t.cpu.pc + 1 },
                instruction_count := t.instruction_count + 1 }, false) := by
      simp [CountedCPU.step, hh, hstep]
    show (CountedCPU.step_n_loop t (r + 1 + 1)).map _ = _
    rw [CountedCPU.step_n_loop, hcstep]
    have hrest := ih { cpu := { t.cpu with register_file := rf, pc := t.cpu.pc + 1 },
                       instruction_count := t.instruction_count + 1 }
      (by simp [hh]) (by simp; omega)
      (by
        intro j hj
        simp only
        have harith : t.cpu.pc + 1 + j = t.cpu.pc + (j + 1) := by omega
        rw [harith]
        exact hbody (j + 1) (by omega))
      (by
        simp only
        have harith : t.cpu.pc + 1 + r = t.cpu.pc + (r + 1) := by omega
        rw [harith]
        exact hlast)
    rw [hrest]
    simp only [Option.some.injEq, Prod.mk.injEq, true_and]
    omega

/-- C1 counterexample: in `beqExample` the two source registers are equal
and the fetched instruction is `BEQ r1,r2,+3` at pc 0, yet the step leaves
pc at 4, not at 0 + 3 as the claim states: the shared pc increment also
applies to a taken branch. -/
theorem beq_claim_counterexample :
    (CPU.step beqExample).map (fun p => p.1.pc) = some 4 ∧
    (CPU.step beqExample).map (fun p => p.1.pc) ≠ some 3 :=
  ⟨by decide, by decide⟩

/-- C1 (amended): with the fetched instruction decoding to BEQ, a step on
equal source registers sets pc to the wrapped sum of the old pc and the
sign-extended offset, and then additionally advances it by one (wrapping);
on unequal registers pc advances by exactly one. -/
theorem beq_taken_adds_offset_plus_one (s : CPU) (reg_a reg_b : Register) (offset_field : Int)
    (hh : s.halted = false) (hpc : s.pc < MEMORY_SIZE)
    (hdec : Instruction.new (s.memory s.pc) = some (.beq reg_a reg_b offset_field)) :
    (s.get_register reg_a = s.get_register reg_b →
      (CPU.step s).map (fun p => p.1.pc) =
        some ((CPU.offset_memory s.pc offset_field + 1) % U32)) ∧
    (s.get_register reg_a ≠ s.get_register reg_b →
      (CPU.step s).map (fun p => p.1.pc) = some (s.pc + 1)) := by
  constructor
  · intro heq
    simp [CPU.step, hh, hpc, hdec, CPU.advance, heq]
  · intro hne
    simp [CPU.step, hh, hpc, hdec, CPU.advance, hne, pc_succ_mod s.pc hpc]

/-- C1 witness: the amended theorem applied to `beqExample` (equal
registers, offset +3 at pc 0). -/
theorem beq_taken_adds_offset_plus_one_witness :
    (beqExample.halted = false ∧ beqExample.pc < MEMORY_SIZE ∧
      Instruction.new (beqExample.memory beqExample.pc) = some (.beq .r1 .r2 3) ∧
      beqExample.get_register .r1 = beqExample.get_register .r2) ∧
    (CPU.step beqExample).map (fun p => p.1.pc) =
      some ((CPU.offset_memory beqExample.pc 3 + 1) % U32) :=
  ⟨⟨rfl, by decide, by decide, by decide⟩,
    (beq_taken_adds_offset_plus_one beqExample .r1 .r2 3 rfl (by decide) (by decide)).1
      (by decide)⟩

/-- C2 counterexample: in `jalrSameExample` the fetched instruction is
`JALR r1,r1` with r1 = 100 and pc = 10, yet the step leaves pc at 11 (the
link value), not at 100 (the value r1 held before the instruction) as the
claim states: the link is written to reg_b before reg_a is read. -/
theorem jalr_equal_claim_counterexample :
    (CPU.step jalrSameExample).map (fun p => p.1.pc) = some 11 ∧
    (CPU.step jalrSameExample).map (fun p => p.1.pc) ≠ some 100 :=
  ⟨by decide, by decide⟩

/-- C2 (amended): with the fetched instruction decoding to JALR whose two
register operands coincide, the link value old pc + 1 is written to the
register first and the jump target is read afterwards, so the final pc and
the register both equal old pc + 1 and the step reports no halt. -/
theorem jalr_equal_regs_links_then_jumps (s : CPU) (reg_a : Register)
    (hh : s.halted = false) (hpc : s.pc < MEMORY_SIZE)
    (hdec : Instruction.new (s.memory s.pc) = some (.jalr reg_a reg_a)) :
    (CPU.step s).map (fun p => (p.1.pc, p.1.register_file reg_a, p.2)) =
      some (s.pc + 1, s.pc + 1, false) := by
  simp [CPU.step, hh, hpc, hdec, CPU.set_register, CPU.get_register,
    pc_succ_mod s.pc hpc]

/-- C2 witness: the amended theorem applied to `jalrSameExample`. -/
theorem jalr_equal_regs_links_then_jumps_witness :
    (jalrSameExample.halted = false ∧ jalrSameExample.pc < MEMORY_SIZE ∧
      Instruction.new (jalrSameExample.memory jalrSameExample.pc) = some (.jalr .r1 .r1)) ∧
    (CPU.step jalrSameExample).map (fun p => (p.1.pc, p.1.register_file .r1, p.2)) =
      some (jalrSameExample.pc + 1, jalrSameExample.pc + 1, false) :=
  ⟨⟨rfl, by decide, by decide⟩,
    jalr_equal_regs_links_then_jumps jalrSameExample .r1 rfl (by decide) (by decide)⟩

/-- C3: the code under src/ does not return a `MemoryFault` on out-of-range
LW, SW, or fetch addresses — it panics (modelled as `none`): an LW whose
effective address is 70000, an SW whose effective address is 70000, and a
fetch at pc 70000 each abort with a panic instead of recording a fault and
halting. -/
theorem out_of_range_access_panics :
    CPU.step lwFaultExample = none ∧
    CPU.step swFaultExample = none ∧
    CPU.step fetchFaultExample = none :=
  ⟨rfl, rfl, rfl⟩

/-- C4: the executed-instruction counter (modelled from the spec, as the
accessor is missing from src/cpu.rs) starts at 0, is incremented by exactly
one per instruction actually executed, is not incremented by step calls
after halting, and for a straight-line program of `k` instructions ending
in HALT, stepping to completion leaves the counter at exactly `k`, as
observed through `read_instruction_count`. -/
theorem instruction_count_spec (prog : List Nat) (k : Nat)
    (hk : 0 < k) (hk2 : k ≤ MEMORY_SIZE)
    (hbody : ∀ j, j < k - 1 → (Instruction.new (prog.getD j 0)).map regOnly = some true)
    (hlast : Instruction.new (prog.getD (k - 1) 0) = some .halt) :
    read_instruction_count (CountedCPU.new prog) = 0 ∧
    (∀ t u b, t.cpu.halted = false → CountedCPU.step t = some (u, b) →
      read_instruction_count u = read_instruction_count t + 1) ∧
    (∀ t : CountedCPU, t.cpu.halted = true → CountedCPU.step t = some (t, true)) ∧
    (CountedCPU.step_n (CountedCPU.new prog) k).map
      (fun p => (p.2, read_instruction_count p.1)) = some (true, k) := by
  refine ⟨rfl, ?_, ?_, ?_⟩
  · intro t u b ht hstep
    unfold CountedCPU.step at hstep
    rw [ht] at hstep
    simp only [Bool.false_eq_true, if_false] at hstep
    cases hcpu : CPU.step t.cpu with
    | none => rw [hcpu] at hstep; simp at hstep
    | some p =>
      rw [hcpu] at hstep
      simp only [Option.some.injEq, Prod.mk.injEq] at hstep
      obtain ⟨hu, _⟩ := hstep
      rw [← hu]
      rfl
  · intro t ht
    simp [CountedCPU.step, ht]
  · have hmem : ∀ a, (CountedCPU.new prog).cpu.memory a = prog.getD a 0 := fun a => rfl
    have hrun := step_n_loop_straight (k - 1) (CountedCPU.new prog)
      rfl
      (by show 0 + (k - 1) < MEMORY_SIZE; have hms : (65536 : Nat) = MEMORY_SIZE := rfl; omega)
      (by
        intro j hj
        show (Instruction.new ((CountedCPU.new prog).cpu.memory (0 + j))).map regOnly = some true
        rw [Nat.zero_add, hmem]
        exact hbody j hj)
      (by
        show Instruction.new ((CountedCPU.new prog).cpu.memory (0 + (k - 1))) = some .halt
        rw [Nat.zero_add, hmem]
        exact hlast)
    have hk1 : k - 1 + 1 = k := by omega
    rw [hk1] at hrun
    simp only [read_instruction_count]
    unfold CountedCPU.step_n
    rw [if_neg (by simp [CountedCPU.new, CPU.new])]
    have hz : (CountedCPU.new prog).instruction_count + k = k := by
      show 0 + k = k
      omega
    rw [hz] at hrun
    exact hrun

/-- C4 witness: the two-instruction program NOOP; HALT executed to
completion leaves the counter at exactly 2. -/
theorem instruction_count_spec_witness :
    (0 < 2 ∧ 2 ≤ MEMORY_SIZE ∧
      Instruction.new ([29360128, 25165824].getD (2 - 1) 0) = some .halt) ∧
    read_instruction_count (CountedCPU.new [29360128, 25165824]) = 0 ∧
    (CountedCPU.step_n (CountedCPU.new [29360128, 25165824]) 2).map
      (fun p => (p.2, read_instruction_count p.1)) = some (true, 2) :=
  ⟨⟨by decide, by decide, by decide⟩,
    (instruction_count_spec [29360128, 25165824] 2 (by decide) (by decide)
      (by decide) (by decide)).1,
    (instruction_count_spec [29360128, 25165824] 2 (by decide) (by decide)
      (by decide) (by decide)).2.2.2⟩

/-- C5: once halted, the machine is terminally halted: `step` returns the
very same state together with the halted outcome, and so does `step_n` for
every count, so registers, memory and pc are unchanged and the halted flag
is never cleared. -/
theorem halted_is_terminal (s : CPU) (h : s.halted = true) :
    CPU.step s = some (s, true) ∧ ∀ count, CPU.step_n s count = some (s, true) := by
  refine ⟨?_, fun count => ?_⟩
  · simp [CPU.step, h]
  · simp [CPU.step_n, h]

/-- C5 witness: the theorem applied to a concrete halted state, with
`step_n` sampled at count 5. -/
theorem halted_is_terminal_witness :
    haltedExample.halted = true ∧
    CPU.step haltedExample = some (haltedExample, true) ∧
    CPU.step_n haltedExample 5 = some (haltedExample, true) :=
  ⟨rfl, (halted_is_terminal haltedExample rfl).1,
    (halted_is_terminal haltedExample rfl).2 5⟩

/-- C6: decoding is total — for every word the decoder returns one of the 8
defined instruction forms and never reaches its unreachable arms (register
indices are inherently in range, `Register` having exactly the eight values
r0 through r7). -/
theorem decode_total (code : Nat) : (Instruction.new code).isSome = true := by
  unfold Instruction.new
  have h : (code >>> 22) &&& 7 < 8 := by rw [and7_eq]; exact Nat.mod_lt _ (by norm_num)
  interval_cases h2 : (code >>> 22) &&& 7 <;>
    simp [parse_r_isSome, parse_i_isSome, parse_j_isSome]

/-- C7: with the fetched instruction decoding to JALR on distinct registers,
a step writes old pc + 1 into reg_b, sets pc to the value reg_a held, and
does not additionally advance pc. -/
theorem jalr_distinct_semantics (s : CPU) (reg_a reg_b : Register)
    (hh : s.halted = false) (hpc : s.pc < MEMORY_SIZE)
    (hdec : Instruction.new (s.memory s.pc) = some (.jalr reg_a reg_b))
    (hne : reg_a ≠ reg_b) :
    (CPU.step s).map (fun p => (p.1.pc, p.1.register_file reg_b, p.2)) =
      some (s.register_file reg_a, s.pc + 1, false) := by
  simp [CPU.step, hh, hpc, hdec, CPU.set_register, CPU.get_register, hne,
    pc_succ_mod s.pc hpc]

/-- C7 witness: the theorem applied to `jalrExample` (pc = 10, r1 = 100)
yields reg_b = 11 and pc = 100. -/
theorem jalr_distinct_semantics_witness :
    (jalrExample.halted = false ∧ jalrExample.pc < MEMORY_SIZE ∧
      Instruction.new (jalrExample.memory jalrExample.pc) = some (.jalr .r1 .r2) ∧
      (Register.r1 ≠ Register.r2)) ∧
    (CPU.step jalrExample).map (fun p => (p.1.pc, p.1.register_file .r2, p.2)) =
      some (jalrExample.register_file .r1, jalrExample.pc + 1, false) :=
  ⟨⟨rfl, by decide, by decide, by decide⟩,
    jalr_distinct_semantics jalrExample .r1 .r2 rfl (by decide) (by decide) (by decide)⟩

/-- C8: with the fetched instruction decoding to ADD, a step stores the
wrapping (modulo 2^32) sum of the two source registers in the destination
with no fault, and that sum is commutative in the two source registers. -/
theorem add_wrapping_commutative (s : CPU) (reg_a reg_b dst_reg : Register)
    (hh : s.halted = false) (hpc : s.pc < MEMORY_SIZE)
    (hdec : Instruction.new (s.memory s.pc) = some (.add reg_a reg_b dst_reg)) :
    (CPU.step s).map (fun p => (p.1.register_file dst_reg, p.2)) =
      some ((s.get_register reg_a + s.get_register reg_b) % U32, false) ∧
    (s.get_register reg_a + s.get_register reg_b) % U32 =
      (s.get_register reg_b + s.get_register reg_a) % U32 := by
  constructor
  · simp [CPU.step, hh, hpc, hdec, CPU.advance, CPU.set_register]
  · rw [Nat.add_comm]

/-- C8 witness: the theorem applied to `addExample`
(r1 = 0xFFFFFFFF, r2 = 1), whose wrapped sum is 0. -/
theorem add_wrapping_commutative_witness :
    (addExample.halted = false ∧ addExample.pc < MEMORY_SIZE ∧
      Instruction.new (addExample.memory addExample.pc) = some (.add .r1 .r2 .r3) ∧
      (addExample.get_register .r1 + addExample.get_register .r2) % U32 = 0) ∧
    (CPU.step addExample).map (fun p => (p.1.register_file .r3, p.2)) =
      some ((addExample.get_register .r1 + addExample.get_register .r2) % U32, false) ∧
    (addExample.get_register .r1 + addExample.get_register .r2) % U32 =
      (addExample.get_register .r2 + addExample.get_register .r1) % U32 :=
  ⟨⟨rfl, by decide, by decide, by decide⟩,
    (add_wrapping_commutative addExample .r1 .r2 .r3 rfl (by decide) (by decide)).1,
    (add_wrapping_commutative addExample .r1 .r2 .r3 rfl (by decide) (by decide)).2⟩

/-- C9: executing `SW reg_a,reg_b,0` and then `LW reg_a,reg_c,0` (the store
address being in range and distinct from the address of the LW instruction,
so that the LW actually executes) leaves reg_c holding the value reg_b held
before the store. -/
theorem sw_lw_roundtrip (s : CPU) (reg_a reg_b reg_c : Register)
    (hh : s.halted = false) (hpc : s.pc < MEMORY_SIZE) (hpc1 : s.pc + 1 < MEMORY_SIZE)
    (hsw : Instruction.new (s.memory s.pc) = some (.sw reg_a reg_b 0))
    (hlw : Instruction.new (s.memory (s.pc + 1)) = some (.lw reg_a reg_c 0))
    (haddr : s.register_file reg_a < MEMORY_SIZE)
    (hnc : s.register_file reg_a ≠ s.pc + 1) :
    ((CPU.step s).bind fun p => CPU.step p.1).map (fun p => p.1.register_file reg_c) =
      some (s.register_file reg_b) := by
  have haddrU : s.register_file reg_a < U32 := by
    have h1 : s.register_file reg_a < 65536 := haddr
    have h2 : s.register_file reg_a < 4294967296 := by omega
    exact h2
  have h0 : CPU.offset_memory (s.get_register reg_a) 0 = s.register_file reg_a :=
    offset_memory_zero _ haddrU
  have hstep1 := sw_step s reg_a reg_b 0 hh hpc hsw (by rw [h0]; exact haddr)
  rw [hstep1]
  rw [pc_succ_mod s.pc hpc]
  simp only [Option.some_bind]
  set s1 : CPU :=
    { s with
        memory := fun a =>
          if a = CPU.offset_memory (s.get_register reg_a) 0 then s.get_register reg_b
          else s.memory a
        pc := s.pc + 1 } with hs1
  have hh1 : s1.halted = false := hh
  have hpcs1 : s1.pc < MEMORY_SIZE := hpc1
  have hm1 : s1.memory s1.pc = s.memory (s.pc + 1) := by
    simp only [hs1, h0]
    rw [if_neg (by exact fun h => hnc (by omega))]
  have hdec1 : Instruction.new (s1.memory s1.pc) = some (.lw reg_a reg_c 0) := by
    rw [hm1]; exact hlw
  have hr1 : s1.get_register reg_a = s.register_file reg_a := rfl
  have hstep2 := lw_step s1 reg_a reg_c 0 hh1 hpcs1 hdec1
    (by rw [hr1] at *; rw [offset_memory_zero _ haddrU]; exact haddr)
  rw [hstep2]
  simp [hs1, h0, CPU.get_register, offset_memory_zero (s.register_file reg_a) haddrU]

/-- C9 witness: the theorem applied to `roundtripExample` (store 77 from r2
at address 100, then load it into r3). -/
theorem sw_lw_roundtrip_witness :
    (roundtripExample.halted = false ∧ roundtripExample.pc < MEMORY_SIZE ∧
      roundtripExample.pc + 1 < MEMORY_SIZE ∧
      Instruction.new (roundtripExample.memory roundtripExample.pc) = some (.sw .r1 .r2 0) ∧
      Instruction.new (roundtripExample.memory (roundtripExample.pc + 1)) =
        some (.lw .r1 .r3 0) ∧
      roundtripExample.register_file .r1 < MEMORY_SIZE ∧
      roundtripExample.register_file .r1 ≠ roundtripExample.pc + 1) ∧
    ((CPU.step roundtripExample).bind fun p => CPU.step p.1).map
      (fun p => p.1.register_file .r3) = some (roundtripExample.register_file .r2) :=
  ⟨⟨rfl, by decide, by decide, by decide, by decide, by decide, by decide⟩,
    sw_lw_roundtrip roundtripExample .r1 .r2 .r3 rfl (by decide) (by decide)
      (by decide) (by decide) (by decide) (by decide)⟩

/-- C10: the decoder ignores the top 7 bits of the instruction word:
decoding a word reduced modulo 2^25 gives the same instruction as decoding
the word itself, so any two words agreeing on bits 24-0 decode equally. -/
theorem decode_ignores_top_bits (w : Nat) :
    Instruction.new (w % 33554432) = Instruction.new w := by
  have hra : Register.new ((w % 33554432) >>> 19) = Register.new (w >>> 19) :=
    Register.new_congr (by simp only [Nat.shiftRight_eq_div_pow]; norm_num; omega)
  have hrb : Register.new ((w % 33554432) >>> 16) = Register.new (w >>> 16) :=
    Register.new_congr (by simp only [Nat.shiftRight_eq_div_pow]; norm_num; omega)
  have hdst : Register.new (w % 33554432) = Register.new w :=
    Register.new_congr (by omega)
  have hoff : (w % 33554432) &&& 65535 = w &&& 65535 := by
    rw [and65535_eq, and65535_eq]; omega
  have hpr : Instruction.parse_r (w % 33554432) = Instruction.parse_r w := by
    unfold Instruction.parse_r; rw [hra, hrb, hdst]
  have hpi : Instruction.parse_i (w % 33554432) = Instruction.parse_i w := by
    unfold Instruction.parse_i; rw [hra, hrb, hoff]
  have hpj : Instruction.parse_j (w % 33554432) = Instruction.parse_j w := by
    unfold Instruction.parse_j; rw [hra, hrb]
  have hop : (w % 33554432) >>> 22 &&& 7 = w >>> 22 &&& 7 := by
    rw [and7_eq, and7_eq]
    simp only [Nat.shiftRight_eq_div_pow]
    norm_num
    omega
  unfold Instruction.new
  rw [hop, hpr, hpi, hpj]
